import Mathlib

/-!
Verification of the runtime function-overloading dispatcher
(`function_overloading.py`): an `OverloadedFunction` proxy holding an
ordered registry of candidate callables, and an `Overloader` controller
mapping qualified names to `OverloadedFunction` objects, with a decorator
producing dispatch wrappers.

The embedding models Python values by a small inductive `Value`, a
callable's introspected signature (`inspect.getfullargspec`) by
`FullArgSpec`, and a registered callable by `PyFunction` (its qualified
name, its signature, and its body as a pure function of the raw
positional/keyword arguments).  Errors are modelled by `Except PyError`.
-/

set_option autoImplicit false

/-- A Python runtime value (as much of it as dispatch ever inspects). -/
inductive Value where
  | int : Int → Value
  | str : String → Value
  | none : Value
deriving Repr, DecidableEq

/-- The apostrophe character used by Python `repr` of strings and dict keys. -/
def pyQuote : String := String.singleton (Char.ofNat 39)

/-- Python `repr` of a `Value`, used when formatting error messages. -/
def Value.pyrepr : Value → String
  | .int i => toString i
  | .str s => pyQuote ++ s ++ pyQuote
  | .none => "None"

/-- Python `str` of the positional-argument tuple `args`. -/
def pyStrTuple (args : List Value) : String :=
  match args with
  | [] => "()"
  | [v] => "(" ++ v.pyrepr ++ ",)"
  | vs => "(" ++ String.intercalate ", " (vs.map Value.pyrepr) ++ ")"

/-- Python `str` of the keyword-argument dict `kwargs`. -/
def pyStrDict (kwargs : List (String × Value)) : String :=
  "\x7b" ++
    String.intercalate ", "
      (kwargs.map (fun kv => pyQuote ++ kv.1 ++ pyQuote ++ ": " ++ kv.2.pyrepr)) ++
  "\x7d"

/-- The result of `inspect.getfullargspec` on a candidate: its named
(positional-or-keyword) parameters, its varargs/varkw parameter names when
declared, its default values when declared, and its keyword-only
parameters.  (`kwonlydefaults` and `annotations` are never read by the
dispatcher and are omitted.) -/
structure FullArgSpec where
  args : List String
  varargs : Option String
  varkw : Option String
  defaults : Option (List Value)
  kwonlyargs : List String
deriving Repr, DecidableEq

/-- A registered callable: its `__qualname__`, its introspected signature,
and its body, taken as a black box from the raw positional and keyword
arguments to the returned value. -/
structure PyFunction where
  qualname : String
  spec : FullArgSpec
  impl : List Value → List (String × Value) → Value

/-- The errors the dispatcher and its wrappers can raise. -/
inductive PyError where
  | overloadedFunctionError : String → PyError
  | typeError : String → PyError
  | keyError : String → PyError
deriving Repr, DecidableEq

deriving instance DecidableEq for Except

/-- First conjunct of `OverloadedFunction.lookup`: the candidate can
handle the given number of positional arguments
(`len(args) <= len(fullargspec.args) or bool(fullargspec.varargs)`). -/
def handlesArgs (spec : FullArgSpec) (args : List Value) : Bool :=
  decide (args.length ≤ spec.args.length) || spec.varargs.isSome

/-- `fullargspec.args[len(args):]`: the named parameters not already
consumed by the supplied positional arguments. -/
def remainingArgs (spec : FullArgSpec) (args : List Value) : List String :=
  spec.args.drop args.length

/-- Second conjunct of `OverloadedFunction.lookup`: the candidate can
handle the remaining keyword arguments
(`frozenset(kwargs.keys()).issubset(remaining_args) or bool(fullargspec.varkw)`). -/
def handlesKwargs (spec : FullArgSpec) (args : List Value)
    (kwargs : List (String × Value)) : Bool :=
  (kwargs.map Prod.fst).all (fun k => (remainingArgs spec args).contains k) ||
    spec.varkw.isSome

/-- The full acceptance test of `OverloadedFunction.lookup` for one
candidate signature. -/
def accepts (spec : FullArgSpec) (args : List Value)
    (kwargs : List (String × Value)) : Bool :=
  handlesArgs spec args && handlesKwargs spec args kwargs

/-- The ordered registry of candidates sharing one qualified name
(`OverloadedFunction`). -/
structure OverloadedFunction where
  registry : List PyFunction

/-- `OverloadedFunction.lookup`: the first registered candidate whose
signature accepts the given call shape. -/
def OverloadedFunction.lookup (ov : OverloadedFunction) (args : List Value)
    (kwargs : List (String × Value)) : Option PyFunction :=
  ov.registry.find? (fun f => accepts f.spec args kwargs)

/-- `OverloadedFunction.register`: append a candidate. -/
def OverloadedFunction.register (ov : OverloadedFunction) (f : PyFunction) :
    OverloadedFunction :=
  ⟨ov.registry ++ [f]⟩

/-- The message of the exception raised when no candidate matches. -/
def noMatchMsg (args : List Value) (kwargs : List (String × Value)) : String :=
  "Failed to find matching function for given arguments: args=" ++
    pyStrTuple args ++ ", kwargs=" ++ pyStrDict kwargs

/-- `OverloadedFunction.__call__`: look up the first matching candidate and
evaluate it on the given arguments; raise `OverloadedFunctionError`
otherwise. -/
def OverloadedFunction.call (ov : OverloadedFunction) (args : List Value)
    (kwargs : List (String × Value)) : Except PyError Value :=
  match ov.lookup args kwargs with
  | Option.none =>
      Except.error (PyError.overloadedFunctionError (noMatchMsg args kwargs))
  | Option.some f => Except.ok (f.impl args kwargs)

/-- The controller (`Overloader`): an insertion-ordered mapping from
qualified name to `OverloadedFunction`, modelled as an association list. -/
structure Overloader where
  registry : List (String × OverloadedFunction)

/-- `Overloader.register`: create an empty `OverloadedFunction` for the
callable's qualified name when none exists, then append the callable to
the entry for that name. -/
def Overloader.register (o : Overloader) (f : PyFunction) : Overloader :=
  let base :=
    if (o.registry.lookup f.qualname).isSome then o.registry
    else o.registry ++ [(f.qualname, OverloadedFunction.mk [])]
  ⟨base.map (fun p => if p.1 = f.qualname then (p.1, p.2.register f) else p)⟩

/-- Register a whole sequence of callables in order, as repeated
`Overloader.register` calls. -/
def Overloader.registerAll (o : Overloader) (fs : List PyFunction) : Overloader :=
  fs.foldl Overloader.register o

/-- The candidate list currently registered under a qualified name
(empty when the name is unknown). -/
def overloaderCandidates (o : Overloader) (q : String) : List PyFunction :=
  match o.registry.lookup q with
  | Option.some ov => ov.registry
  | Option.none => []

/-- What `Overloader.overload` receives: a plain function
(`inspect.isfunction`), a bound method (`inspect.ismethod`), or some other
callable carrying a qualified name. -/
inductive Callable where
  | function : PyFunction → Callable
  | method : PyFunction → Callable
  | other : PyFunction → Callable

/-- The underlying callable data. -/
def Callable.func : Callable → PyFunction
  | .function f => f
  | .method f => f
  | .other f => f

/-- The wrapper object returned by the decorator: it closes over the
original callable's qualified name only; the controller state is consulted
at call time. -/
inductive Wrapper where
  | functionWrapper : String → Wrapper
  | methodWrapper : String → Wrapper
deriving Repr, DecidableEq

/-- `Overloader.overload`: register the callable, then return the wrapper
matching its kind — `function_wrapper` for plain functions,
`method_wrapper` for bound methods, and (falling off the end of the
Python function) `None` for anything else. -/
def Overloader.overload (o : Overloader) (c : Callable) :
    Overloader × Option Wrapper :=
  let o2 := o.register c.func
  match c with
  | .function f => (o2, Option.some (Wrapper.functionWrapper f.qualname))
  | .method f => (o2, Option.some (Wrapper.methodWrapper f.qualname))
  | .other _ => (o2, Option.none)

/-- Calling `function_wrapper(*args, **kwargs)` when the controller state
is `o`: re-fetch `self.registry[qualname]` (a `KeyError` when absent) and
delegate the call. -/
def functionWrapperCall (o : Overloader) (q : String) (args : List Value)
    (kwargs : List (String × Value)) : Except PyError Value :=
  match o.registry.lookup q with
  | Option.none => Except.error (PyError.keyError q)
  | Option.some ov => ov.call args kwargs

/-- Calling `method_wrapper(_self, *args, **kwargs)` when the controller
state is `o`: first `self.registry[function.__qualname__]` is re-fetched
(a `KeyError` when the name is absent); then
`_function(self=_self, *args, **kwargs)` is evaluated.  `_function` is an
`OverloadedFunction` instance, so this call goes through
`OverloadedFunction.__call__(self, *args, **kwargs)`: the instance is
already bound to the parameter named `self`, and the explicit keyword
`self=_self` collides with that binding, so Python raises `TypeError`
before any candidate lookup — on every invocation, whatever the
arguments. -/
def methodWrapperCall (o : Overloader) (q : String) ( _selfV : Value)
    ( _args : List Value) ( _kwargs : List (String × Value)) :
    Except PyError Value :=
  match o.registry.lookup q with
  | Option.none => Except.error (PyError.keyError q)
  | Option.some _ =>
      Except.error (PyError.typeError "got multiple values for argument self")

/-- The spec's reading of the bound-method wrapper, stated from its words:
the wrapper "invokes it passing `selfInstance` as the method's implicit
receiver argument together with the remaining positional and keyword
arguments" — i.e. the receiver occupies the leading positional slot. -/
def methodWrapperCallSpec (o : Overloader) (q : String) (selfV : Value)
    (args : List Value) (kwargs : List (String × Value)) : Except PyError Value :=
  match o.registry.lookup q with
  | Option.none => Except.error (PyError.keyError q)
  | Option.some ov => ov.call (selfV :: args) kwargs

/-- The acceptance test as worded by the spec (claim C3): positional
compatibility, and every supplied keyword name among the remaining named
parameters unless varkw is declared. -/
def acceptsSpec (spec : FullArgSpec) (args : List Value)
    (kwargs : List (String × Value)) : Prop :=
  (args.length ≤ spec.args.length ∨ spec.varargs.isSome = true) ∧
  ((∀ k ∈ kwargs.map Prod.fst, k ∈ spec.args.drop args.length) ∨
    spec.varkw.isSome = true)

/-! Concrete example callables used by the end-to-end claims and by the
witnesses below. -/

/-- Signature of `greet(name)`. -/
def greetSpec1 : FullArgSpec :=
  ⟨["name"], Option.none, Option.none, Option.none, []⟩

/-- The candidate `greet(name)`, registered first. -/
def greet1 : PyFunction := ⟨"greet", greetSpec1, fun _ _ => Value.int 1⟩

/-- Signature of `greet(name, greeting="hi")`. -/
def greetSpec2 : FullArgSpec :=
  ⟨["name", "greeting"], Option.none, Option.none,
    Option.some [Value.str "hi"], []⟩

/-- The candidate `greet(name, greeting="hi")`, registered second. -/
def greet2 : PyFunction := ⟨"greet", greetSpec2, fun _ _ => Value.int 2⟩

/-- The dispatch set holding `greet1` then `greet2`. -/
def greetOv : OverloadedFunction := ⟨[greet1, greet2]⟩

/-- A signature declaring one keyword-only parameter `key` and no varkw. -/
def kwOnlySpec : FullArgSpec :=
  ⟨[], Option.none, Option.none, Option.none, ["key"]⟩

/-- The candidate `add(x)`. -/
def addF1 : PyFunction :=
  ⟨"add", ⟨["x"], Option.none, Option.none, Option.none, []⟩, fun _ _ => Value.int 1⟩

/-- The candidate `add(x, y)`. -/
def addF2 : PyFunction :=
  ⟨"add", ⟨["x", "y"], Option.none, Option.none, Option.none, []⟩,
    fun _ _ => Value.int 2⟩

/-- A bound method `C.m(self, x)`. -/
def mfun : PyFunction :=
  ⟨"C.m", ⟨["self", "x"], Option.none, Option.none, Option.none, []⟩,
    fun _ _ => Value.int 7⟩

/-- The controller state after decorating `mfun` as a bound method. -/
def exMethodO : Overloader :=
  ((Overloader.mk []).overload (Callable.method mfun)).1

/-! Theorems. -/

/-- `List.find?` returns the element at index `i` when it satisfies the
predicate and every earlier element does not. -/
theorem find_first_aux {α : Type} (p : α → Bool) (l : List α) :
    ∀ (i : Nat) (a : α), l.get? i = Option.some a → p a = true →
      (∀ j b, j < i → l.get? j = Option.some b → p b = false) →
      l.find? p = Option.some a := by
  induction l with
  | nil => intro i a h _ _; simp at h
  | cons x t ih =>
    intro i a h hp hfirst
    cases i with
    | zero =>
      simp at h
      subst h
      simp [List.find?_cons_of_pos _ hp]
    | succ n =>
      have hx : p x = false := hfirst 0 x (Nat.succ_pos n) rfl
      rw [List.find?_cons_of_neg _ (by simp [hx])]
      rw [List.get?_cons_succ] at h
      exact ih n a h hp
        (fun j b hj hg => hfirst (j + 1) b (by omega) (by rw [List.get?_cons_succ]; exact hg))

/-- When every registered candidate rejects the call shape, `lookup`
returns no candidate. -/
theorem lookup_eq_none_of_all_reject (ov : OverloadedFunction)
    (args : List Value) (kwargs : List (String × Value))
    (h : ∀ f ∈ ov.registry, accepts f.spec args kwargs = false) :
    ov.lookup args kwargs = Option.none := by
  rw [OverloadedFunction.lookup, List.find?_eq_none]
  intro f hf
  simp [h f hf]

/-- Claim C1: whenever some registered candidate passes the acceptance
test, invoking the dispatch set returns exactly the result of the first
accepting candidate in registration order, applied to exactly the given
positional and keyword arguments. -/
theorem C1_first_match_wins (ov : OverloadedFunction) (args : List Value)
    (kwargs : List (String × Value)) (f : PyFunction) (i : Nat)
    (hget : ov.registry.get? i = Option.some f)
    (hacc : accepts f.spec args kwargs = true)
    (hfirst : ∀ j g, j < i → ov.registry.get? j = Option.some g →
      accepts g.spec args kwargs = false) :
    ov.call args kwargs = Except.ok (f.impl args kwargs) := by
  have h := find_first_aux (fun g => accepts g.spec args kwargs) ov.registry
    i f hget hacc hfirst
  simp [OverloadedFunction.call, OverloadedFunction.lookup] at h ⊢
  rw [h]

/-- Witness for C1: on the concrete `greet` dispatch set, `greet("A")`
returns the first candidate's result. -/
theorem C1_first_match_wins_witness :
    greetOv.call [Value.str "A"] [] = Except.ok (Value.int 1) :=
  C1_first_match_wins greetOv [Value.str "A"] [] greet1 0 rfl (by decide)
    (fun j _ hj _ => absurd hj (Nat.not_lt_zero j))

/-- Claim C2: when no registered candidate accepts the call shape,
invocation fails with `OverloadedFunctionError` whose message embeds the
attempted positional and keyword arguments; no candidate body is
consulted — any dispatch set with the same signatures but arbitrary other
bodies fails identically. -/
theorem C2_no_match_raises (ov : OverloadedFunction) (args : List Value)
    (kwargs : List (String × Value))
    (h : ∀ f ∈ ov.registry, accepts f.spec args kwargs = false) :
    ov.call args kwargs =
      Except.error (PyError.overloadedFunctionError (noMatchMsg args kwargs)) ∧
    noMatchMsg args kwargs =
      "Failed to find matching function for given arguments: args=" ++
        pyStrTuple args ++ ", kwargs=" ++ pyStrDict kwargs ∧
    (∀ ov2 : OverloadedFunction,
      ov2.registry.map PyFunction.spec = ov.registry.map PyFunction.spec →
      ov2.call args kwargs =
        Except.error (PyError.overloadedFunctionError (noMatchMsg args kwargs))) := by
  have hnone := lookup_eq_none_of_all_reject ov args kwargs h
  refine ⟨by simp [OverloadedFunction.call, hnone], by simp [noMatchMsg], ?_⟩
  intro ov2 hspec
  have h2 : ∀ f ∈ ov2.registry, accepts f.spec args kwargs = false := by
    intro f hf
    have hmem : f.spec ∈ ov2.registry.map PyFunction.spec :=
      List.mem_map_of_mem _ hf
    rw [hspec] at hmem
    obtain ⟨g, hg, hgs⟩ := List.mem_map.mp hmem
    rw [← hgs]
    exact h g hg
  have hnone2 := lookup_eq_none_of_all_reject ov2 args kwargs h2
  simp [OverloadedFunction.call, hnone2]

/-- Witness for C2: calling the concrete `greet` dispatch set with three
positional arguments fails with the no-match error. -/
theorem C2_no_match_raises_witness :
    greetOv.call [Value.int 1, Value.int 2, Value.int 3] [] =
      Except.error (PyError.overloadedFunctionError
        (noMatchMsg [Value.int 1, Value.int 2, Value.int 3] [])) :=
  (C2_no_match_raises greetOv [Value.int 1, Value.int 2, Value.int 3] []
    (by decide)).1

/-- Claim C8: declared defaults play no role in acceptance — a candidate
with its defaults replaced accepts exactly the same calls; a call with
fewer positional arguments than named parameters (and a passing keyword
test) is accepted regardless of defaults; a call with more positional
arguments than named parameters is rejected when no varargs is declared. -/
theorem C8_defaults_irrelevant (spec : FullArgSpec) (d : Option (List Value))
    (args : List Value) (kwargs : List (String × Value)) :
    (accepts (FullArgSpec.mk spec.args spec.varargs spec.varkw d spec.kwonlyargs)
        args kwargs = accepts spec args kwargs) ∧
    (args.length < spec.args.length → handlesKwargs spec args kwargs = true →
      accepts spec args kwargs = true) ∧
    (spec.args.length < args.length → spec.varargs = Option.none →
      accepts spec args kwargs = false) := by
  refine ⟨rfl, ?_, ?_⟩
  · intro h1 h2
    simp [accepts, handlesArgs, h2, Nat.le_of_lt h1]
  · intro h1 h2
    simp [accepts, handlesArgs, h2]
    omega

/-- Witness for C8: `greet(name, greeting="hi")` accepts the one-argument
call regardless of its defaults, and `greet(name)` rejects a two-argument
call. -/
theorem C8_defaults_irrelevant_witness :
    accepts greetSpec2 [Value.str "A"] [] = true ∧
    accepts greetSpec1 [Value.int 1, Value.int 2] [] = false :=
  ⟨(C8_defaults_irrelevant greetSpec2 Option.none [Value.str "A"] []).2.1
      (by decide) (by decide),
   (C8_defaults_irrelevant greetSpec1 Option.none [Value.int 1, Value.int 2] []).2.2
      (by decide) rfl⟩

/-- Claim C9: a candidate declaring a keyword-only parameter but no varkw
rejects any call supplying a keyword argument of that name, because the
keyword test consults only the positional parameter list
(`fullargspec.args`), never `kwonlyargs`. -/
theorem C9_kwonly_never_matched (spec : FullArgSpec) (args : List Value)
    (kwargs : List (String × Value)) (k : String)
    (hvk : spec.varkw = Option.none)
    ( _hkonly : k ∈ spec.kwonlyargs)
    (hdisj : k ∉ spec.args)
    (hmem : k ∈ kwargs.map Prod.fst) :
    accepts spec args kwargs = false := by
  have hnot : (remainingArgs spec args).contains k = false := by
    rw [Bool.eq_false_iff]
    intro hc
    have hk : k ∈ remainingArgs spec args := List.elem_iff.mp hc
    exact hdisj (List.drop_subset _ _ hk)
  have hkw : handlesKwargs spec args kwargs = false := by
    rw [handlesKwargs, hvk]
    simp only [Option.isSome_none, Bool.or_false]
    rw [List.all_eq_false]
    refine ⟨k, hmem, ?_⟩
    simp only [hnot]
    simp
  simp [accepts, hkw]

/-- Witness for C9: a candidate with the single keyword-only parameter
`key` rejects the call supplying the keyword `key`. -/
theorem C9_kwonly_never_matched_witness :
    accepts kwOnlySpec [] [("key", Value.int 1)] = false :=
  C9_kwonly_never_matched kwOnlySpec [] [("key", Value.int 1)] "key" rfl
    (by decide) (by decide) (by decide)

/-- Claim C3: a candidate is accepted exactly when the supplied positional
arguments fit its named parameters (or varargs is declared) and every
supplied keyword name lies among the remaining named parameters (or varkw
is declared). -/
theorem C3_acceptance_test (spec : FullArgSpec) (args : List Value)
    (kwargs : List (String × Value)) :
    accepts spec args kwargs = true ↔ acceptsSpec spec args kwargs := by
  simp [accepts, handlesArgs, handlesKwargs, remainingArgs, acceptsSpec,
    Bool.and_eq_true, Bool.or_eq_true, decide_eq_true_eq, List.all_eq_true,
    List.contains, List.elem_iff]

/-- Claim C7: with `greet(name)` registered before
`greet(name, greeting="hi")`, the call `greet("A", greeting="yo")`
resolves to the second candidate: the first is rejected (no remaining
parameter can take the keyword `greeting`), the second accepted, and the
call returns the second candidate's result. -/
theorem C7_greet_scenario :
    accepts greet1.spec [Value.str "A"] [("greeting", Value.str "yo")] = false ∧
    accepts greet2.spec [Value.str "A"] [("greeting", Value.str "yo")] = true ∧
    greetOv.call [Value.str "A"] [("greeting", Value.str "yo")] =
      Except.ok (greet2.impl [Value.str "A"] [("greeting", Value.str "yo")]) := by
  refine ⟨by decide, by decide, ?_⟩
  rfl

/-- Looking a key up after the value-updating map that `Overloader.register`
performs: the entry for the registered name gains the new candidate and
every other entry is untouched. -/
theorem lookup_map_update (l : List (String × OverloadedFunction))
    (q name : String) (g : PyFunction) :
    (l.map (fun p => if p.1 = name then (p.1, p.2.register g) else p)).lookup q =
      if q = name then (l.lookup q).map (fun ov => ov.register g)
      else l.lookup q := by
  induction l with
  | nil => simp
  | cons p t ih =>
    obtain ⟨k, v⟩ := p
    by_cases hq : q = k
    · subst hq
      have hb : (q == q) = true := beq_self_eq_true q
      by_cases hk : q = name
      · subst hk
        simp [List.lookup_cons, hb]
      · simp [List.lookup_cons, hb, hk]
    · have hb : (q == k) = false := beq_eq_false_iff_ne.mpr hq
      by_cases hk : k = name
      · subst hk
        simp [List.lookup_cons, hb, hq, ih]
      · simp [List.lookup_cons, hb, hq, hk, ih]

/-- The effect of `Overloader.register` on a key lookup: the registered
name now maps to its previous candidates (none when the name was new)
followed by the new candidate; other names are untouched. -/
theorem register_lookup (o : Overloader) (g : PyFunction) (q : String) :
    (o.register g).registry.lookup q =
      if q = g.qualname then
        Option.some (OverloadedFunction.mk
          (overloaderCandidates o g.qualname ++ [g]))
      else o.registry.lookup q := by
  have hbase0 : (o.register g).registry =
      (if (o.registry.lookup g.qualname).isSome then o.registry
       else o.registry ++ [(g.qualname, OverloadedFunction.mk [])]).map
        (fun p => if p.1 = g.qualname then (p.1, p.2.register g) else p) := rfl
  rw [hbase0]
  by_cases hs : (o.registry.lookup g.qualname).isSome
  · obtain ⟨ov, hov⟩ := Option.isSome_iff_exists.mp hs
    rw [if_pos hs, lookup_map_update]
    by_cases hq : q = g.qualname
    · subst hq
      simp [hov, overloaderCandidates, OverloadedFunction.register]
    · simp [hq]
  · have hnone : o.registry.lookup g.qualname = Option.none :=
      Option.not_isSome_iff_eq_none.mp hs
    rw [if_neg hs, lookup_map_update]
    by_cases hq : q = g.qualname
    · subst hq
      rw [if_pos rfl, if_pos rfl, List.lookup_append, hnone]
      have hself : ([(g.qualname, OverloadedFunction.mk [])] :
          List (String × OverloadedFunction)).lookup g.qualname =
          Option.some (OverloadedFunction.mk []) := by
        simp [List.lookup_cons]
      rw [hself]
      simp [overloaderCandidates, hnone, OverloadedFunction.register]
    · rw [if_neg hq, if_neg hq, List.lookup_append]
      have hsingle : ([(g.qualname, OverloadedFunction.mk [])] :
          List (String × OverloadedFunction)).lookup q = Option.none := by
        have hb : (q == g.qualname) = false := beq_eq_false_iff_ne.mpr hq
        simp [List.lookup_cons, hb]
      rw [hsingle]
      cases o.registry.lookup q <;> simp

/-- `Overloader.register` preserves the key sequence, except that a
hitherto unknown qualified name is appended at the end. -/
theorem register_keys (o : Overloader) (g : PyFunction) :
    (o.register g).registry.map Prod.fst =
      if (o.registry.lookup g.qualname).isSome then o.registry.map Prod.fst
      else o.registry.map Prod.fst ++ [g.qualname] := by
  show (Overloader.register o g).registry.map Prod.fst = _
  rw [Overloader.register]
  have hfst : ∀ l : List (String × OverloadedFunction),
      (l.map (fun p => if p.1 = g.qualname then (p.1, p.2.register g) else p)).map
        Prod.fst = l.map Prod.fst := by
    intro l
    rw [List.map_map]
    congr 1
    funext p
    by_cases h : p.1 = g.qualname <;> simp [h]
  by_cases hs : (o.registry.lookup g.qualname).isSome
  · simp only [hs, if_true]
    exact hfst o.registry
  · simp only [hs, if_false]
    rw [hfst]
    simp

/-- Registering a sequence and then one more callable is registering the
longer sequence. -/
theorem registerAll_append (o : Overloader) (fs : List PyFunction)
    (g : PyFunction) :
    o.registerAll (fs ++ [g]) = (o.registerAll fs).register g := by
  simp [Overloader.registerAll, List.foldl_append]

/-- Characterization of the registry built from the empty controller: a
qualified name maps to exactly the registered callables carrying that
name, in registration order. -/
theorem registerAll_lookup (fs : List PyFunction) (q : String) :
    (Overloader.registerAll (Overloader.mk []) fs).registry.lookup q =
      (if (fs.filter (fun f => f.qualname == q)).isEmpty then Option.none
       else Option.some (OverloadedFunction.mk
         (fs.filter (fun f => f.qualname == q)))) := by
  induction fs using List.reverseRecOn with
  | nil => simp [Overloader.registerAll]
  | append_singleton fs g ih =>
    rw [registerAll_append, register_lookup]
    by_cases hq : q = g.qualname
    · rw [if_pos hq]
      have hc : overloaderCandidates (Overloader.registerAll (Overloader.mk []) fs)
          g.qualname = fs.filter (fun f => f.qualname == q) := by
        rw [overloaderCandidates, ← hq, ih]
        by_cases he : (fs.filter (fun f => f.qualname == q)).isEmpty
        · simp [he, List.isEmpty_iff.mp he]
        · simp [he]
      rw [hc]
      have hgs : (g.qualname == q) = true := beq_iff_eq.mpr hq.symm
      have hfg : (List.filter (fun f => f.qualname == q) [g]) = [g] := by
        simp [List.filter_cons, hgs]
      rw [List.filter_append, hfg]
      simp [List.isEmpty_iff]
    · rw [if_neg hq, ih]
      have hgs : (g.qualname == q) = false :=
        beq_eq_false_iff_ne.mpr (fun h => hq h.symm)
      have hfg : (List.filter (fun f => f.qualname == q) [g]) = [] := by
        simp [List.filter_cons, hgs]
      rw [List.filter_append, hfg, List.append_nil]

/-- The registry built from the empty controller has no duplicate
qualified-name keys. -/
theorem registerAll_keys_nodup (fs : List PyFunction) :
    ((Overloader.registerAll (Overloader.mk []) fs).registry.map Prod.fst).Nodup := by
  induction fs using List.reverseRecOn with
  | nil => simp [Overloader.registerAll]
  | append_singleton fs g ih =>
    rw [registerAll_append, register_keys]
    by_cases hs : ((Overloader.registerAll (Overloader.mk [])
        fs).registry.lookup g.qualname).isSome
    · simpa [hs] using ih
    · have hnone := Option.not_isSome_iff_eq_none.mp hs
      have hnotin : g.qualname ∉
          (Overloader.registerAll (Overloader.mk []) fs).registry.map Prod.fst := by
        rw [List.lookup_eq_none_iff] at hnone
        intro hmem
        obtain ⟨p, hp, hfstp⟩ := List.mem_map.mp hmem
        have := hnone p hp
        simp [hfstp] at this
      rw [if_neg hs, List.nodup_append]
      exact ⟨ih, List.nodup_singleton _, by simpa using hnotin⟩

/-- Appending a candidate under its own qualified name extends exactly
that name's candidate list. -/
theorem register_candidates (o : Overloader) (g : PyFunction) :
    overloaderCandidates (o.register g) g.qualname =
      overloaderCandidates o g.qualname ++ [g] := by
  rw [overloaderCandidates, register_lookup]
  simp

/-- When every candidate of the left part rejects, dispatch over an
extended registry selects from the appended part. -/
theorem call_append_last (c : List PyFunction) (g : PyFunction)
    (args : List Value) (kwargs : List (String × Value))
    (hrej : ∀ h ∈ c, accepts h.spec args kwargs = false)
    (hg : accepts g.spec args kwargs = true) :
    OverloadedFunction.call ⟨c ++ [g]⟩ args kwargs =
      Except.ok (g.impl args kwargs) := by
  have hfind : OverloadedFunction.lookup ⟨c ++ [g]⟩ args kwargs =
      Option.some g := by
    rw [OverloadedFunction.lookup]
    show (c ++ [g]).find? (fun f => accepts f.spec args kwargs) = Option.some g
    rw [List.find?_append]
    have h1 : c.find? (fun f => accepts f.spec args kwargs) = Option.none := by
      rw [List.find?_eq_none]
      intro x hx
      simp [hrej x hx]
    rw [h1]
    simp [List.find?, hg]
  simp [OverloadedFunction.call, hfind]

/-- Claim C6: starting from an empty controller, any sequence of
`register` calls yields a registry whose qualified-name keys are
pairwise distinct (one dispatch set per name), where each name maps to
exactly the callables registered under it, in registration order. -/
theorem C6_registry_invariant (fs : List PyFunction) (q : String) :
    ((Overloader.registerAll (Overloader.mk []) fs).registry.map Prod.fst).Nodup ∧
    (Overloader.registerAll (Overloader.mk []) fs).registry.lookup q =
      (if (fs.filter (fun f => f.qualname == q)).isEmpty then Option.none
       else Option.some (OverloadedFunction.mk
         (fs.filter (fun f => f.qualname == q)))) :=
  ⟨registerAll_keys_nodup fs, registerAll_lookup fs q⟩

/-- Claim C4: decorating a plain function returns the plain-function
wrapper, and the wrapper consults the dispatch set by qualified name at
call time — a candidate registered under the same qualified name after
decoration is selected by a call that only it accepts, and its result is
returned. -/
theorem C4_plain_function_wrapper (o : Overloader) (f g : PyFunction)
    (args : List Value) (kwargs : List (String × Value))
    (hq : g.qualname = f.qualname)
    (hg : accepts g.spec args kwargs = true)
    (hrej : ∀ h ∈ overloaderCandidates (o.overload (Callable.function f)).1
      f.qualname, accepts h.spec args kwargs = false) :
    (o.overload (Callable.function f)).2 =
      Option.some (Wrapper.functionWrapper f.qualname) ∧
    functionWrapperCall ((o.overload (Callable.function f)).1.register g)
      f.qualname args kwargs = Except.ok (g.impl args kwargs) := by
  refine ⟨rfl, ?_⟩
  have hlook : ((o.overload (Callable.function f)).1.register g).registry.lookup
      f.qualname = Option.some (OverloadedFunction.mk
        (overloaderCandidates (o.overload (Callable.function f)).1 f.qualname ++
          [g])) := by
    rw [register_lookup, if_pos hq.symm, hq]
  rw [functionWrapperCall, hlook]
  exact call_append_last _ g args kwargs hrej hg

/-- Witness for C4: decorate `add(x)`, register `add(x, y)` afterwards
through the same controller; the wrapper created for `add(x)` dispatches
the two-argument call to the later-registered `add(x, y)`. -/
theorem C4_plain_function_wrapper_witness :
    functionWrapperCall
      (((Overloader.mk []).overload (Callable.function addF1)).1.register addF2)
      "add" [Value.int 1, Value.int 2] [] = Except.ok (Value.int 2) :=
  (C4_plain_function_wrapper (Overloader.mk []) addF1 addF2
    [Value.int 1, Value.int 2] [] rfl (by decide) (by decide)).2

/-- Claim C5 (code bug): the decorator does return the bound-method
wrapper, and the wrapper does re-fetch the dispatch set by qualified name
at call time, but the call `_function(self=_self, *args, **kwargs)`
collides with `OverloadedFunction.__call__`'s own bound `self` parameter,
so every invocation of the wrapper raises `TypeError` and no overload's
result is ever returned.  At the failing input — `C.m(self, x)`
registered, wrapper called with receiver `0` and positional argument `5`
— the claim predicts the selected overload's result `7`
(`methodWrapperCallSpec`), while the code raises the `TypeError`. -/
theorem C5_method_wrapper_always_raises :
    (∀ (o : Overloader) (f : PyFunction),
      (o.overload (Callable.method f)).2 =
        Option.some (Wrapper.methodWrapper f.qualname)) ∧
    (∀ (o : Overloader) (q : String) (selfV : Value) (args : List Value)
        (kwargs : List (String × Value)),
      ∃ e : PyError,
        methodWrapperCall o q selfV args kwargs = Except.error e) ∧
    methodWrapperCall exMethodO "C.m" (Value.int 0) [Value.int 5] [] =
      Except.error (PyError.typeError
        "got multiple values for argument self") ∧
    methodWrapperCallSpec exMethodO "C.m" (Value.int 0) [Value.int 5] [] =
      Except.ok (Value.int 7) := by
  refine ⟨fun o f => rfl, ?_, rfl, rfl⟩
  intro o q selfV args kwargs
  cases h : o.registry.lookup q with
  | none => exact ⟨PyError.keyError q, by simp [methodWrapperCall, h]⟩
  | some ov =>
      exact ⟨PyError.typeError "got multiple values for argument self",
        by simp [methodWrapperCall, h]⟩

/-- Claim C10: decorating a callable that is neither a plain function nor
a bound method still appends it to the dispatch set for its qualified
name, but the decorator returns no wrapper (Python `None`), leaving the
decorated name bound to nothing callable. -/
theorem C10_other_callable (o : Overloader) (f : PyFunction) :
    (o.overload (Callable.other f)).2 = Option.none ∧
    overloaderCandidates (o.overload (Callable.other f)).1 f.qualname =
      overloaderCandidates o f.qualname ++ [f] :=
  ⟨rfl, register_candidates o f⟩
